import Mathlib

/-!
# Verification of the GitHub repository mirror fetcher

Shallow embedding of `src/github-copilot-interaction.py`. External effects
(HTTP via `requests.get`/`requests.post`, base64 decoding, filesystem write
failures, local file reads) are modelled as oracles packaged in a `World`.
The filesystem is modelled as a chronological trace of events (`FsEv`);
Python exceptions raised by `Path.write_bytes` are modelled by the
`Outcome.exn` constructor, and the recursion of
`_download_directory_contents` is indexed by fuel (`Outcome.fuelOut` marks
fuel exhaustion, which corresponds to non-termination of the source).
-/

/-- One JSON entry of a GitHub contents listing: `{name, type, size,
content?, download_url}`. `content = none` models an absent `content` key;
`content = some ""` models a present but empty (falsy) one. -/
structure Entry where
  name : String
  type : String
  size : Nat
  content : Option String
  download_url : String
deriving DecidableEq

/-- A `requests` response: status code, text body, byte body
(`response.content`), and the parsed JSON listing (`response.json()`,
meaningful only when the body is a listing). -/
structure HttpResp where
  status_code : Nat
  text : String
  content : List Nat
  json : List Entry
deriving DecidableEq

/-- The state of a `GitHubCopilotInteraction` object: the four attributes
assigned in `__init__` and never reassigned elsewhere. -/
structure Client where
  username : String
  pat_token : String
  headers : List (String × String)
  base_url : String
deriving DecidableEq

/-- `GitHubCopilotInteraction.__init__`. -/
def Client.make (username pat_token : String) : Client :=
  { username := username
    pat_token := pat_token
    headers :=
      [("Authorization", "token " ++ pat_token),
       ("Accept", "application/vnd.github.v3+json"),
       ("User-Agent", "GitHub-Copilot-Client-" ++ username)]
    base_url := "https://api.github.com" }

/-- External world: the oracles for every effect the script performs.
`writeFails p` says whether `Path.write_bytes` at local path `p` raises
(an `OSError` condition of the machine, outside the program). -/
structure World where
  requests_get : String → List (String × String) → HttpResp
  requests_post : String → List (String × String) → String → Except String HttpResp
  b64decode : String → List Nat
  writeFails : List String → Bool
  read_file : String → Except String String

/-- A local filesystem event, in chronological order. Local paths are
lists of segments (`target_path / item['name']` appends a segment). -/
inductive FsEv where
  | mkdir (path : List String) (parents : Bool)
  | write (path : List String) (bytes : List Nat)
deriving DecidableEq

/-- The dict appended to `result['files']`. -/
structure FileRec where
  name : String
  path : String
  size : Nat
deriving DecidableEq

/-- The dict returned by `_download_directory_contents`: either
`{'error': text}` or `{'files': ..., 'directories': ...}`; a directory
record is `(name, path, contents)`. -/
inductive DirResult where
  | error (text : String)
  | ok (files : List FileRec) (directories : List (String × String × DirResult))

/-- Result of a run: normal return with the final filesystem trace, an
uncaught exception raised at a write (carrying the trace at raise time),
or fuel exhaustion. -/
inductive Outcome where
  | ok (result : DirResult) (fs : List FsEv)
  | exn (path : List String) (fs : List FsEv)
  | fuelOut

/-- `str(item_path)` for a segment-list local path. -/
def pathStr (p : List String) : String :=
  String.intercalate "/" p

/-- The listing URL built at the top of `_download_directory_contents`:
`f"{self.base_url}/repos/{owner}/{repo}/contents/{path}"`. -/
def listingUrl (c : Client) (owner repo path : String) : String :=
  c.base_url ++ "/repos/" ++ owner ++ "/" ++ repo ++ "/contents/" ++ path

/-- The recursive remote path: `f"{path}/{item['name']}" if path else
item['name']`. -/
def childRemotePath (path name : String) : String :=
  if path = "" then name else path ++ "/" ++ name

/-- The fallback branch of `_get_file_content`: GET the `download_url`;
on 200 return the bytes, otherwise print an error and return `b''`. -/
def fallback_download (c : Client) (w : World) (item : Entry) : List Nat :=
  let response := w.requests_get item.download_url c.headers
  if response.status_code = 200 then response.content else []

/-- `_get_file_content`: inline base64 content when the `content` key is
present and truthy (non-empty), otherwise the fallback download. -/
def get_file_content (c : Client) (w : World) (item : Entry) : List Nat :=
  match item.content with
  | some s => if s = "" then fallback_download c w item else w.b64decode s
  | none => fallback_download c w item

/-- The `for item in contents` loop body of `_download_directory_contents`,
with the recursive call abstracted as `recur` (instantiated with the
fuel-smaller `downloadDirContents`). `files`, `dirs`, `fs` are the
accumulated `result['files']`, `result['directories']` and the filesystem
trace. -/
def processItems (c : Client) (w : World)
    (recur : String → List String → List FsEv → Outcome)
    (path : String) (target_path : List String) :
    List Entry → List FileRec → List (String × String × DirResult) →
    List FsEv → Outcome
  | [], files, dirs, fs => .ok (.ok files dirs) fs
  | item :: rest, files, dirs, fs =>
    let item_path := target_path ++ [item.name]
    if item.type = "file" then
      let file_content := get_file_content c w item
      if w.writeFails item_path then
        .exn item_path fs
      else
        processItems c w recur path target_path rest
          (files ++ [⟨item.name, pathStr item_path, item.size⟩]) dirs
          (fs ++ [.write item_path file_content])
    else if item.type = "dir" then
      match recur (childRemotePath path item.name) item_path
          (fs ++ [.mkdir item_path false]) with
      | .ok sub fs2 =>
          processItems c w recur path target_path rest files
            (dirs ++ [(item.name, pathStr item_path, sub)]) fs2
      | .exn p f => .exn p f
      | .fuelOut => .fuelOut
    else
      processItems c w recur path target_path rest files dirs fs

/-- `_download_directory_contents(owner, repo, path, target_path)`, fuel
indexed: GET the listing URL; on a non-200 status return
`{'error': response.text}`; otherwise loop over the parsed entries. -/
def downloadDirContents (c : Client) (w : World) (owner repo : String) :
    Nat → String → List String → List FsEv → Outcome
  | 0, _, _, _ => .fuelOut
  | fuel + 1, path, target_path, fs =>
    let response := w.requests_get (listingUrl c owner repo path) c.headers
    if response.status_code ≠ 200 then
      .ok (.error response.text) fs
    else
      processItems c w (downloadDirContents c w owner repo fuel)
        path target_path response.json [] [] fs

/-- `fetch_repository(repo_owner, repo_name, target_path=None)`: default
the target to `Path(repo_name)`, `mkdir(parents=True, exist_ok=True)`,
then download remote path `''`. -/
def fetch_repository (c : Client) (w : World) (fuel : Nat)
    (repo_owner repo_name : String) (target_path : Option (List String))
    (fs : List FsEv) : Outcome :=
  let tp := match target_path with
    | none => [repo_name]
    | some p => p
  downloadDirContents c w repo_owner repo_name fuel "" tp
    (fs ++ [.mkdir tp true])

/-- The filesystem trace an outcome ends with (`none` on fuel
exhaustion). -/
def traceOf : Outcome → Option (List FsEv)
  | .ok _ fs => some fs
  | .exn _ fs => some fs
  | .fuelOut => none

/-- The dict returned by `send_copilot_query`: the parsed JSON body on a
200 response, otherwise `{"error": ...}`. -/
inductive CopilotResult where
  | json (body : String)
  | error (msg : String)
deriving DecidableEq

/-- `send_copilot_query(query, context_files=None)`: concatenate readable
context files, POST to the completions URL with merged headers; 200 gives
the parsed body, a non-200 or a raised exception gives an error dict
(file-read errors are printed and skipped). -/
def send_copilot_query (c : Client) (w : World) (query : String)
    (context_files : Option (List String)) : CopilotResult :=
  let copilot_url := "https://api.githubcopilot.com/v1/completions"
  let context := match context_files with
    | none => ""
    | some fps =>
      fps.foldl (fun acc fp =>
        match w.read_file fp with
        | .ok file_content =>
            acc ++ "\n# File: " ++ fp ++ "\n" ++ file_content ++ "\n"
        | .error _ => acc) ""
  let prompt := context ++ "\n" ++ query
  let copilot_headers := c.headers ++
    [("Content-Type", "application/json"),
     ("GitHub-Authentication", "Bearer " ++ c.pat_token)]
  match w.requests_post copilot_url copilot_headers prompt with
  | .ok response =>
      if response.status_code = 200 then .json response.text
      else .error response.text
  | .error e => .error e

/-- A method call on the client object, with its arguments. -/
inductive Op where
  | fetchRepo (w : World) (fuel : Nat) (owner repo : String)
      (target : Option (List String)) (fs : List FsEv)
  | downloadDir (w : World) (fuel : Nat) (owner repo path : String)
      (tp : List String) (fs : List FsEv)
  | getFile (w : World) (item : Entry)
  | copilotQuery (w : World) (q : String) (cfs : Option (List String))

/-- The client state after one method call. None of the four methods
assigns to `self.*` (only `__init__` does), so each call leaves the
object unchanged. -/
def stepClient (c : Client) : Op → Client
  | .fetchRepo w fuel o r tgt fs =>
      let _ := fetch_repository c w fuel o r tgt fs
      c
  | .downloadDir w fuel o r p tp fs =>
      let _ := downloadDirContents c w o r fuel p tp fs
      c
  | .getFile w item =>
      let _ := get_file_content c w item
      c
  | .copilotQuery w q cfs =>
      let _ := send_copilot_query c w q cfs
      c

/-- The client state after a sequence of method calls. -/
def runOps (c : Client) : List Op → Client
  | [] => c
  | op :: ops => runOps (stepClient c op) ops

/-! ## Concrete fixtures used to exercise the model -/

/-- A concrete client. -/
def c0 : Client := Client.make "u" "t"

/-- A placeholder POST oracle (the completion endpoint is a stub). -/
def noPost : String → List (String × String) → String → Except String HttpResp :=
  fun _ _ _ => .error "no net"

/-- A placeholder local-read oracle. -/
def noRead : String → Except String String := fun _ => .error "no fs"

/-- A concrete base64 decoder stand-in (any fixed decoder works for the
properties below, which only compare against the same decoder). -/
def dec0 : String → List Nat := fun s => s.data.map Char.toNat

/-- World whose every GET answers 404 with body `"NF"`. -/
def wS404 : World :=
  { requests_get := fun _ _ =>
      { status_code := 404, text := "NF", content := [], json := [] }
    requests_post := noPost, b64decode := dec0
    writeFails := fun _ => false, read_file := noRead }

/-- World whose every GET answers 500 with body `"NF"`: differs from
`wS404` only in the status code. -/
def wS500 : World :=
  { requests_get := fun _ _ =>
      { status_code := 500, text := "NF", content := [], json := [] }
    requests_post := noPost, b64decode := dec0
    writeFails := fun _ => false, read_file := noRead }

/-- A file entry without inline content, to be fetched via `"ua"`. -/
def entA : Entry :=
  { name := "a", type := "file", size := 3, content := none
    download_url := "ua" }

/-- A file entry with inline base64 content. -/
def entB : Entry :=
  { name := "b", type := "file", size := 1, content := some "Qg=="
    download_url := "ub" }

/-- A directory entry. -/
def entD : Entry :=
  { name := "d", type := "dir", size := 0, content := none
    download_url := "" }

/-- An entry of a type that is neither `file` nor `dir` (skipped by the
loop). -/
def entX : Entry :=
  { name := "x", type := "symlink", size := 0, content := none
    download_url := "" }

/-- Root listing `[entA, entB]`; the download of `"ua"` FAILS with 404
(and a non-empty error body of bytes `[9, 9]`). -/
def wDlFail : World :=
  { requests_get := fun url _ =>
      if url = listingUrl c0 "o" "r" "" then
        { status_code := 200, text := "", content := [], json := [entA, entB] }
      else if url = "ua" then
        { status_code := 404, text := "gone", content := [9, 9], json := [] }
      else { status_code := 500, text := "", content := [], json := [] }
    requests_post := noPost, b64decode := dec0
    writeFails := fun _ => false, read_file := noRead }

/-- Identical to `wDlFail` except that the download of `"ua"` SUCCEEDS
with 200 and empty byte body. -/
def wDlOk : World :=
  { requests_get := fun url _ =>
      if url = listingUrl c0 "o" "r" "" then
        { status_code := 200, text := "", content := [], json := [entA, entB] }
      else if url = "ua" then
        { status_code := 200, text := "", content := [], json := [] }
      else { status_code := 500, text := "", content := [], json := [] }
    requests_post := noPost, b64decode := dec0
    writeFails := fun _ => false, read_file := noRead }

/-- Root listing `[entA, entD, entB, entX]`; `"ua"` downloads bytes
`[7, 8]`; the listing of subdirectory `d` fails with 404. -/
def wTree : World :=
  { requests_get := fun url _ =>
      if url = listingUrl c0 "o" "r" "" then
        { status_code := 200, text := "", content := []
          json := [entA, entD, entB, entX] }
      else if url = "ua" then
        { status_code := 200, text := "", content := [7, 8], json := [] }
      else { status_code := 404, text := "sub gone", content := [], json := [] }
    requests_post := noPost, b64decode := dec0
    writeFails := fun _ => false, read_file := noRead }

/-- Like `wTree` but the write at local path `t/a` raises. -/
def wWF : World :=
  { requests_get := wTree.requests_get
    requests_post := noPost, b64decode := dec0
    writeFails := fun p => p = ["t", "a"], read_file := noRead }

/-! ## Helper lemmas -/

/-- On a non-200 listing response, `_download_directory_contents` returns
`{'error': response.text}` and performs no filesystem operation. -/
theorem downloadDirContents_non200
    (c : Client) (w : World) (owner repo : String) (fuel : Nat)
    (path : String) (tp : List String) (fs : List FsEv)
    (h : (w.requests_get (listingUrl c owner repo path) c.headers).status_code
          ≠ 200) :
    downloadDirContents c w owner repo (fuel + 1) path tp fs =
      Outcome.ok
        (DirResult.error
          (w.requests_get (listingUrl c owner repo path) c.headers).text)
        fs := by
  simp [downloadDirContents, h]

/-- `_get_file_content` with absent or empty inline content and a failed
follow-up download returns `b''`. -/
theorem get_file_content_of_failed_download
    (c : Client) (w : World) (item : Entry)
    (hc : item.content = none ∨ item.content = some "")
    (hdl : (w.requests_get item.download_url c.headers).status_code ≠ 200) :
    get_file_content c w item = [] := by
  rcases hc with h | h <;> simp [get_file_content, h, fallback_download, hdl]

/-! ## Claims -/

/-- Claim C2, corrected, counterexample: two worlds that differ only in
the listing status code (404 versus 500, same body `"NF"`) produce
identical results, so the error result returned on a non-success listing
does not carry the response status (the code returns
`{'error': response.text}` and only prints the status). -/
theorem listing_error_status_not_carried_cex :
    downloadDirContents c0 wS404 "o" "r" 1 "" ["t"] [] =
        Outcome.ok (DirResult.error "NF") [] ∧
    downloadDirContents c0 wS500 "o" "r" 1 "" ["t"] [] =
        Outcome.ok (DirResult.error "NF") [] ∧
    (wS404.requests_get (listingUrl c0 "o" "r" "") c0.headers).status_code ≠
      (wS500.requests_get (listingUrl c0 "o" "r" "") c0.headers).status_code :=
  ⟨rfl, rfl, by decide⟩

/-- Claim C2, amended: for every listing request that returns a
non-success status, the directory-listing operation returns an error
result that carries the response body (the status is printed but not
included in the result), and it does not raise an exception. -/
theorem listing_error_result_carries_body
    (c : Client) (w : World) (owner repo : String) (fuel : Nat)
    (path : String) (tp : List String) (fs : List FsEv)
    (h : (w.requests_get (listingUrl c owner repo path) c.headers).status_code
          ≠ 200) :
    downloadDirContents c w owner repo (fuel + 1) path tp fs =
      Outcome.ok
        (DirResult.error
          (w.requests_get (listingUrl c owner repo path) c.headers).text)
        fs :=
  downloadDirContents_non200 c w owner repo fuel path tp fs h

/-- Witness for C2 (amended) at a concrete world. -/
theorem listing_error_result_carries_body_witness :
    downloadDirContents c0 wS404 "o" "r" 1 "" ["t"] [] =
      Outcome.ok (DirResult.error "NF") [] :=
  listing_error_result_carries_body c0 wS404 "o" "r" 0 "" ["t"] [] (by decide)

/-- Claim C4: whenever a listing request for a directory returns a status
other than 200, the recursive download of that directory yields an error
result without throwing (the outcome is `ok` with an `error` dict, never
`exn`), and the filesystem trace is exactly the one accumulated by
previously succeeded work: no file or directory is created for that
directory's entries. -/
theorem non200_listing_no_partial_creation
    (c : Client) (w : World) (owner repo : String) (fuel : Nat)
    (path : String) (tp : List String) (fs : List FsEv)
    (h : (w.requests_get (listingUrl c owner repo path) c.headers).status_code
          ≠ 200) :
    ∃ t, downloadDirContents c w owner repo (fuel + 1) path tp fs =
      Outcome.ok (DirResult.error t) fs :=
  ⟨_, downloadDirContents_non200 c w owner repo fuel path tp fs h⟩

/-- Witness for C4 at a concrete world. -/
theorem non200_listing_no_partial_creation_witness :
    ∃ t, downloadDirContents c0 wS404 "o" "r" 1 "" ["t"] [] =
      Outcome.ok (DirResult.error t) [] :=
  non200_listing_no_partial_creation c0 wS404 "o" "r" 0 "" ["t"] [] (by decide)

/-- Claim C5: for every entry of type `dir` encountered while processing
remote path `path`, the loop first appends the `mkdir` event for the
extended local path and only then recurses, with remote path
`path ++ "/" ++ name` (just `name` when `path` is the empty root path)
and local path `tp ++ [name]`. -/
theorem dir_entry_mkdir_then_recurse
    (c : Client) (w : World)
    (recur : String → List String → List FsEv → Outcome)
    (path : String) (tp : List String) (item : Entry) (rest : List Entry)
    (files : List FileRec) (dirs : List (String × String × DirResult))
    (fs : List FsEv) (h : item.type = "dir") :
    processItems c w recur path tp (item :: rest) files dirs fs =
      match recur (if path = "" then item.name else path ++ "/" ++ item.name)
          (tp ++ [item.name]) (fs ++ [FsEv.mkdir (tp ++ [item.name]) false]) with
      | .ok sub fs2 =>
          processItems c w recur path tp rest files
            (dirs ++ [(item.name, pathStr (tp ++ [item.name]), sub)]) fs2
      | .exn p f => Outcome.exn p f
      | .fuelOut => Outcome.fuelOut := by
  have hf : item.type ≠ "file" := by rw [h]; decide
  simp [processItems, hf, h, childRemotePath]

/-- Witness for C5: a concrete directory entry is materialized by a
`mkdir` event followed by the recursive call on remote path `"d"` and
local path `t/d`. -/
theorem dir_entry_mkdir_then_recurse_witness :
    processItems c0 wTree (downloadDirContents c0 wTree "o" "r" 1) "" ["t"]
        (entD :: [entB]) [] [] [] =
      match downloadDirContents c0 wTree "o" "r" 1
          (if "" = "" then entD.name else "" ++ "/" ++ entD.name)
          (["t"] ++ [entD.name])
          ([] ++ [FsEv.mkdir (["t"] ++ [entD.name]) false]) with
      | .ok sub fs2 =>
          processItems c0 wTree (downloadDirContents c0 wTree "o" "r" 1) ""
            ["t"] [entB] []
            ([] ++ [(entD.name, pathStr (["t"] ++ [entD.name]), sub)]) fs2
      | .exn p f => Outcome.exn p f
      | .fuelOut => Outcome.fuelOut :=
  dir_entry_mkdir_then_recurse c0 wTree (downloadDirContents c0 wTree "o" "r" 1)
    "" ["t"] entD [entB] [] [] [] rfl

/-- Claim C7: a filesystem write failure on a file entry is an uncaught
exception: (1) reaching a file entry whose write raises aborts the loop
at once with `exn`, recording nothing for that entry; (2) an exception
arising inside a subdirectory's recursion propagates through the loop
uncaught; (3) end to end, a failing write for a file entry of the root
listing makes `fetch_repository` itself return the exception to its
caller instead of a result dict. -/
theorem write_failure_propagates
    (c : Client) (w : World)
    (recur : String → List String → List FsEv → Outcome)
    (owner repo path : String) (fuel : Nat) (tp p : List String)
    (item : Entry) (rest : List Entry) (files : List FileRec)
    (dirs : List (String × String × DirResult)) (fs f : List FsEv) :
    (item.type = "file" → w.writeFails (tp ++ [item.name]) = true →
      processItems c w recur path tp (item :: rest) files dirs fs =
        Outcome.exn (tp ++ [item.name]) fs) ∧
    (item.type = "dir" →
      recur (childRemotePath path item.name) (tp ++ [item.name])
          (fs ++ [FsEv.mkdir (tp ++ [item.name]) false]) = Outcome.exn p f →
      processItems c w recur path tp (item :: rest) files dirs fs =
        Outcome.exn p f) ∧
    ((w.requests_get (listingUrl c owner repo "") c.headers).status_code = 200 →
      (w.requests_get (listingUrl c owner repo "") c.headers).json =
        item :: rest →
      item.type = "file" → w.writeFails (tp ++ [item.name]) = true →
      fetch_repository c w (fuel + 1) owner repo (some tp) fs =
        Outcome.exn (tp ++ [item.name]) (fs ++ [FsEv.mkdir tp true])) := by
  refine ⟨fun hty hwf => ?_, fun hty hrec => ?_, fun h200 hjson hty hwf => ?_⟩
  · simp [processItems, hty, hwf]
  · have hf : item.type ≠ "file" := by rw [hty]; decide
    simp [processItems, hf, hty, hrec]
  · simp [fetch_repository, downloadDirContents, h200, hjson, processItems,
      hty, hwf]

/-- Witness for C7 at concrete inputs: an immediate abort at a failing
write, a propagated subdirectory exception, and an end-to-end raised
exception out of `fetch_repository`. -/
theorem write_failure_propagates_witness :
    (processItems c0 wWF (downloadDirContents c0 wWF "o" "r" 1) "" ["t"]
        (entA :: [entB]) [] [] [] = Outcome.exn ["t", "a"] []) ∧
    (processItems c0 wWF (fun _ _ fsx => Outcome.exn ["q"] fsx) "" ["t"]
        (entD :: []) [] [] [] =
      Outcome.exn ["q"] [FsEv.mkdir ["t", "d"] false]) ∧
    (fetch_repository c0 wWF 1 "o" "r" (some ["t"]) [] =
      Outcome.exn ["t", "a"] [FsEv.mkdir ["t"] true]) :=
  ⟨(write_failure_propagates c0 wWF (downloadDirContents c0 wWF "o" "r" 1)
      "o" "r" "" 0 ["t"] [] entA [entB] [] [] [] []).1 rfl (by decide),
   (write_failure_propagates c0 wWF (fun _ _ fsx => Outcome.exn ["q"] fsx)
      "o" "r" "" 0 ["t"] ["q"] entD [] [] []
      [] [FsEv.mkdir ["t", "d"] false]).2.1 rfl rfl,
   (write_failure_propagates c0 wWF (downloadDirContents c0 wWF "o" "r" 0)
      "o" "r" "" 0 ["t"] [] entA [entD, entB, entX] [] [] [] []).2.2
     (by decide) rfl rfl (by decide)⟩

/-- Claim C9: a file entry with absent (or empty) inline content whose
follow-up download fails writes a zero-byte file at the entry's local
path and records the entry in `files` exactly as a successful download
would, with the remote-reported `size` field, not the written byte
count. -/
theorem failed_download_written_as_empty_success
    (c : Client) (w : World)
    (recur : String → List String → List FsEv → Outcome)
    (path : String) (tp : List String) (item : Entry) (rest : List Entry)
    (files : List FileRec) (dirs : List (String × String × DirResult))
    (fs : List FsEv)
    (hty : item.type = "file")
    (hc : item.content = none ∨ item.content = some "")
    (hdl : (w.requests_get item.download_url c.headers).status_code ≠ 200)
    (hwf : w.writeFails (tp ++ [item.name]) = false) :
    processItems c w recur path tp (item :: rest) files dirs fs =
      processItems c w recur path tp rest
        (files ++ [⟨item.name, pathStr (tp ++ [item.name]), item.size⟩]) dirs
        (fs ++ [FsEv.write (tp ++ [item.name]) []]) := by
  have hgc := get_file_content_of_failed_download c w item hc hdl
  simp [processItems, hty, hwf, hgc]

/-- Witness for C9: the failed download of `entA` (status 404, non-empty
error body) is written as the empty file `t/a` and recorded with the
remote-reported size 3. -/
theorem failed_download_written_as_empty_success_witness :
    processItems c0 wDlFail (downloadDirContents c0 wDlFail "o" "r" 0) "" ["t"]
        (entA :: [entB]) [] [] [] =
      processItems c0 wDlFail (downloadDirContents c0 wDlFail "o" "r" 0) ""
        ["t"] [entB] [⟨"a", "t/a", 3⟩] [] [FsEv.write ["t", "a"] []] :=
  failed_download_written_as_empty_success c0 wDlFail
    (downloadDirContents c0 wDlFail "o" "r" 0) "" ["t"] entA [entB] [] [] []
    rfl (Or.inl rfl) (by decide) rfl

/-- Claim C3, corrected, counterexample: in `wDlFail` the download of
file `a` fails (status 404) while in `wDlOk` it succeeds with empty
bytes, yet the two runs produce literally identical outcomes — a plain
file record and a zero-byte write — so a failed file download is NOT
recorded in the result for that entry (only a failed subdirectory
listing is). -/
theorem file_download_failure_not_recorded_cex :
    (wDlFail.requests_get "ua" c0.headers).status_code ≠ 200 ∧
    (wDlOk.requests_get "ua" c0.headers).status_code = 200 ∧
    downloadDirContents c0 wDlFail "o" "r" 1 "" ["t"] [] =
      downloadDirContents c0 wDlOk "o" "r" 1 "" ["t"] [] ∧
    downloadDirContents c0 wDlFail "o" "r" 1 "" ["t"] [] =
      Outcome.ok
        (DirResult.ok [⟨"a", "t/a", 3⟩, ⟨"b", "t/b", 1⟩] [])
        [FsEv.write ["t", "a"] [], FsEv.write ["t", "b"] [81, 103, 61, 61]] :=
  ⟨by decide, by decide, rfl, rfl⟩

/-- Claim C3, amended: processing of sibling entries always continues
past a failed entry, but only a subdirectory's failed listing is
recorded in the result for that entry: (1) a `dir` entry whose own
listing fails is recorded in `directories` with the error body as its
contents, and the loop continues with the remaining siblings; (2) a
`file` entry whose download fails is written as a zero-byte file and
recorded in `files` like a success (the failure itself is not recorded),
and the loop continues with the remaining siblings. -/
theorem per_entry_failure_recording_and_continuation
    (c : Client) (w : World) (owner repo path : String) (fuel : Nat)
    (tp : List String) (item : Entry) (rest : List Entry)
    (files : List FileRec) (dirs : List (String × String × DirResult))
    (fs : List FsEv) :
    (item.type = "dir" →
      (w.requests_get (listingUrl c owner repo (childRemotePath path item.name))
          c.headers).status_code ≠ 200 →
      processItems c w (downloadDirContents c w owner repo (fuel + 1)) path tp
          (item :: rest) files dirs fs =
        processItems c w (downloadDirContents c w owner repo (fuel + 1)) path
          tp rest files
          (dirs ++ [(item.name, pathStr (tp ++ [item.name]),
            DirResult.error
              (w.requests_get
                (listingUrl c owner repo (childRemotePath path item.name))
                c.headers).text)])
          (fs ++ [FsEv.mkdir (tp ++ [item.name]) false])) ∧
    (item.type = "file" →
      (item.content = none ∨ item.content = some "") →
      (w.requests_get item.download_url c.headers).status_code ≠ 200 →
      w.writeFails (tp ++ [item.name]) = false →
      processItems c w (downloadDirContents c w owner repo (fuel + 1)) path tp
          (item :: rest) files dirs fs =
        processItems c w (downloadDirContents c w owner repo (fuel + 1)) path
          tp rest
          (files ++ [⟨item.name, pathStr (tp ++ [item.name]), item.size⟩])
          dirs (fs ++ [FsEv.write (tp ++ [item.name]) []])) := by
  refine ⟨fun hty herr => ?_, fun hty hc hdl hwf => ?_⟩
  · have hf : item.type ≠ "file" := by rw [hty]; decide
    have hsub := downloadDirContents_non200 c w owner repo fuel
      (childRemotePath path item.name) (tp ++ [item.name])
      (fs ++ [FsEv.mkdir (tp ++ [item.name]) false]) herr
    simp [processItems, hf, hty, hsub]
  · have hgc := get_file_content_of_failed_download c w item hc hdl
    simp [processItems, hty, hwf, hgc]

/-- Witness for C3 (amended) at concrete inputs: the failed listing of
subdirectory `d` is recorded as its contents while the loop moves on to
`entB`; the failed download of file `a` is written empty, recorded as a
plain file entry, and the loop moves on to `entB`. -/
theorem per_entry_failure_recording_and_continuation_witness :
    (processItems c0 wTree (downloadDirContents c0 wTree "o" "r" 1) "" ["t"]
        (entD :: [entB]) [] [] [] =
      processItems c0 wTree (downloadDirContents c0 wTree "o" "r" 1) "" ["t"]
        [entB] []
        [("d", "t/d", DirResult.error "sub gone")]
        [FsEv.mkdir ["t", "d"] false]) ∧
    (processItems c0 wDlFail (downloadDirContents c0 wDlFail "o" "r" 1) ""
        ["t"] (entA :: [entB]) [] [] [] =
      processItems c0 wDlFail (downloadDirContents c0 wDlFail "o" "r" 1) ""
        ["t"] [entB] [⟨"a", "t/a", 3⟩] [] [FsEv.write ["t", "a"] []]) :=
  ⟨(per_entry_failure_recording_and_continuation c0 wTree "o" "r" "" 0 ["t"]
      entD [entB] [] [] []).1 rfl (by decide),
   (per_entry_failure_recording_and_continuation c0 wDlFail "o" "r" "" 0 ["t"]
      entA [entB] [] [] []).2 rfl (Or.inl rfl) (by decide) rfl⟩

/-- Running the entry loop to a normal `{'files', 'directories'}` result
appends exactly the file entries, in listing order, to the `files`
accumulator, and the directory entries, in listing order, to the
`directories` accumulator (compared on their name and path fields). -/
theorem processItems_ok_spec
    (c : Client) (w : World)
    (recur : String → List String → List FsEv → Outcome)
    (path : String) (tp : List String) :
    ∀ (items : List Entry) (files : List FileRec)
      (dirs : List (String × String × DirResult)) (fs : List FsEv)
      (files' : List FileRec) (dirs' : List (String × String × DirResult))
      (fs' : List FsEv),
      processItems c w recur path tp items files dirs fs =
        Outcome.ok (DirResult.ok files' dirs') fs' →
      files' = files ++ (items.filter fun i => i.type = "file").map
          (fun i => ⟨i.name, pathStr (tp ++ [i.name]), i.size⟩) ∧
      dirs'.map (fun d => (d.1, d.2.1)) =
        dirs.map (fun d => (d.1, d.2.1)) ++
          (items.filter fun i => i.type = "dir").map
            (fun i => (i.name, pathStr (tp ++ [i.name]))) := by
  intro items
  induction items with
  | nil =>
    intro files dirs fs files' dirs' fs' h
    simp only [processItems, Outcome.ok.injEq, DirResult.ok.injEq] at h
    obtain ⟨⟨h1, h2⟩, h3⟩ := h
    subst h1; subst h2
    simp
  | cons item rest ih =>
    intro files dirs fs files' dirs' fs' h
    by_cases hf : item.type = "file"
    · by_cases hw : w.writeFails (tp ++ [item.name])
      · simp [processItems, hf, hw] at h
      · simp only [processItems, hf, if_true, hw, if_false, Bool.false_eq_true,
          ite_false, ite_true] at h
        obtain ⟨h1, h2⟩ := ih _ _ _ _ _ _ h
        have hd : item.type ≠ "dir" := by rw [hf]; decide
        constructor
        · rw [h1]; simp [List.filter_cons, hf, List.append_assoc]
        · rw [h2]; simp [List.filter_cons, hf, hd]
    · by_cases hd : item.type = "dir"
      · simp only [processItems, hf, hd, if_true, if_false, Bool.false_eq_true,
          ite_false, ite_true] at h
        cases hE : recur (childRemotePath path item.name) (tp ++ [item.name])
            (fs ++ [FsEv.mkdir (tp ++ [item.name]) false]) with
        | ok sub fs2 =>
          rw [hE] at h
          simp only [] at h
          obtain ⟨h1, h2⟩ := ih _ _ _ _ _ _ h
          constructor
          · rw [h1]; simp [List.filter_cons, hf]
          · rw [h2]; simp [List.filter_cons, hf, hd, List.append_assoc]
        | exn p2 f2 => rw [hE] at h; simp at h
        | fuelOut => rw [hE] at h; simp at h
      · simp only [processItems, hf, hd, if_false, Bool.false_eq_true,
          ite_false] at h
        obtain ⟨h1, h2⟩ := ih _ _ _ _ _ _ h
        constructor
        · rw [h1]; simp [List.filter_cons, hf, hd]
        · rw [h2]; simp [List.filter_cons, hf, hd]

/-- Claim C6: entries are processed in exactly the order returned by the
listing call, with no sorting or reordering: on a successful listing, a
normal result's `files` list is the listing's file entries in listing
order and its `directories` list is the listing's directory entries in
listing order (compared on name and path; entries of other types are
skipped). -/
theorem entries_processed_in_listing_order
    (c : Client) (w : World) (owner repo : String) (fuel : Nat)
    (path : String) (tp : List String) (fs : List FsEv)
    (files : List FileRec) (dirs : List (String × String × DirResult))
    (fs' : List FsEv)
    (h : downloadDirContents c w owner repo (fuel + 1) path tp fs =
      Outcome.ok (DirResult.ok files dirs) fs') :
    files = ((w.requests_get (listingUrl c owner repo path) c.headers).json.filter
        fun i => i.type = "file").map
        (fun i => ⟨i.name, pathStr (tp ++ [i.name]), i.size⟩) ∧
    dirs.map (fun d => (d.1, d.2.1)) =
      ((w.requests_get (listingUrl c owner repo path) c.headers).json.filter
        fun i => i.type = "dir").map
        (fun i => (i.name, pathStr (tp ++ [i.name]))) := by
  by_cases h200 : (w.requests_get (listingUrl c owner repo path)
      c.headers).status_code = 200
  · simp only [downloadDirContents, h200, ne_eq, not_true_eq_false,
      ite_false, if_false] at h
    have := processItems_ok_spec c w
      (downloadDirContents c w owner repo fuel) path tp
      (w.requests_get (listingUrl c owner repo path) c.headers).json
      [] [] fs files dirs fs' h
    simpa using this
  · rw [downloadDirContents_non200 c w owner repo fuel path tp fs h200] at h
    simp at h

/-- Witness for C6: the listing `[entA, entD, entB, entX]` yields files
`[a, b]` and directories `[d]`, in listing order, with `entX` (a
symlink) skipped. -/
theorem entries_processed_in_listing_order_witness :
    ([⟨"a", "t/a", 3⟩, ⟨"b", "t/b", 1⟩] : List FileRec) =
      ((wTree.requests_get (listingUrl c0 "o" "r" "") c0.headers).json.filter
        fun i => i.type = "file").map
        (fun i => ⟨i.name, pathStr (["t"] ++ [i.name]), i.size⟩) ∧
    ([("d", "t/d", DirResult.error "sub gone")].map
        (fun d => (d.1, d.2.1)) : List (String × String)) =
      ((wTree.requests_get (listingUrl c0 "o" "r" "") c0.headers).json.filter
        fun i => i.type = "dir").map
        (fun i => (i.name, pathStr (["t"] ++ [i.name]))) :=
  entries_processed_in_listing_order c0 wTree "o" "r" 1 "" ["t"] []
    [⟨"a", "t/a", 3⟩, ⟨"b", "t/b", 1⟩]
    [("d", "t/d", DirResult.error "sub gone")]
    [FsEv.write ["t", "a"] [7, 8], FsEv.mkdir ["t", "d"] false,
     FsEv.write ["t", "b"] [81, 103, 61, 61]] rfl

/-- Claim C1: for every directory entry of type `file` processed by the
fetcher (reached by the entry loop in any accumulated state), when the
write does not raise, the loop appends to the trace exactly one write
event at the entry's local path whose bytes are `_get_file_content` of
that same entry — and those bytes equal the base64-decoding of the
entry's own inline `content` field when that field is present and
non-empty, and otherwise the raw bytes returned by the follow-up GET of
the entry's own `download_url` whenever that request returns status
200. -/
theorem written_file_bytes_eq_decoded_content
    (c : Client) (w : World)
    (recur : String → List String → List FsEv → Outcome)
    (path : String) (tp : List String) (item : Entry) (rest : List Entry)
    (files : List FileRec) (dirs : List (String × String × DirResult))
    (fs : List FsEv)
    (hty : item.type = "file")
    (hwf : w.writeFails (tp ++ [item.name]) = false) :
    processItems c w recur path tp (item :: rest) files dirs fs =
      processItems c w recur path tp rest
        (files ++ [⟨item.name, pathStr (tp ++ [item.name]), item.size⟩]) dirs
        (fs ++ [FsEv.write (tp ++ [item.name]) (get_file_content c w item)]) ∧
    (∀ s, item.content = some s → s ≠ "" →
      get_file_content c w item = w.b64decode s) ∧
    ((item.content = none ∨ item.content = some "") →
      (w.requests_get item.download_url c.headers).status_code = 200 →
      get_file_content c w item =
        (w.requests_get item.download_url c.headers).content) := by
  refine ⟨?_, fun s hs hne => ?_, fun hc h200 => ?_⟩
  · simp [processItems, hty, hwf]
  · simp [get_file_content, hs, hne]
  · rcases hc with h1 | h1 <;>
      simp [get_file_content, h1, fallback_download, h200]

/-- Witness for C1: processing `entA` (no inline content, follow-up GET
of its `download_url` `"ua"` returns 200 with bytes `[7, 8]`) writes
exactly those bytes at `t/a` and the decode clauses hold for `entA`
itself. -/
theorem written_file_bytes_eq_decoded_content_witness :
    (processItems c0 wTree (downloadDirContents c0 wTree "o" "r" 1) "" ["t"]
        (entA :: [entB]) [] [] [] =
      processItems c0 wTree (downloadDirContents c0 wTree "o" "r" 1) "" ["t"]
        [entB] [⟨"a", "t/a", 3⟩] []
        [FsEv.write ["t", "a"] (get_file_content c0 wTree entA)]) ∧
    (∀ s, entA.content = some s → s ≠ "" →
      get_file_content c0 wTree entA = wTree.b64decode s) ∧
    ((entA.content = none ∨ entA.content = some "") →
      (wTree.requests_get entA.download_url c0.headers).status_code = 200 →
      get_file_content c0 wTree entA =
        (wTree.requests_get entA.download_url c0.headers).content) :=
  written_file_bytes_eq_decoded_content c0 wTree
    (downloadDirContents c0 wTree "o" "r" 1) "" ["t"] entA [entB] [] [] []
    rfl rfl


/-- The entry loop cannot exhaust fuel on its own: it returns `fuelOut`
only when a recursive call on one of its directory entries does. -/
theorem processItems_ne_fuelOut
    (c : Client) (w : World)
    (recur : String → List String → List FsEv → Outcome)
    (path : String) (tp : List String) :
    ∀ (items : List Entry) (files : List FileRec)
      (dirs : List (String × String × DirResult)) (fs : List FsEv),
      (∀ item ∈ items, item.type = "dir" → ∀ fs0,
        recur (childRemotePath path item.name) (tp ++ [item.name]) fs0 ≠
          Outcome.fuelOut) →
      processItems c w recur path tp items files dirs fs ≠
        Outcome.fuelOut := by
  intro items
  induction items with
  | nil =>
    intro files dirs fs _
    simp [processItems]
  | cons item rest ihp =>
    intro files dirs fs hrec
    by_cases hf : item.type = "file"
    · by_cases hw : w.writeFails (tp ++ [item.name])
      · simp [processItems, hf, hw]
      · simp only [processItems, hf, hw, Bool.false_eq_true, if_true,
          if_false, ite_true, ite_false]
        exact ihp _ _ _ fun i hi => hrec i (List.mem_cons_of_mem _ hi)
    · by_cases hd : item.type = "dir"
      · simp only [processItems, hf, hd, if_true, if_false,
          Bool.false_eq_true, ite_true, ite_false]
        cases hE : recur (childRemotePath path item.name) (tp ++ [item.name])
            (fs ++ [FsEv.mkdir (tp ++ [item.name]) false]) with
        | ok sub fs2 =>
          rw [if_neg (show ¬("dir" : String) = "file" by decide)]
          exact ihp _ _ _ fun i hi => hrec i (List.mem_cons_of_mem _ hi)
        | exn p2 f2 =>
          simp
        | fuelOut =>
          exact absurd hE (hrec item (List.mem_cons_self _ _) hd _)
      · simp only [processItems, hf, hd, if_false, Bool.false_eq_true,
          ite_false]
        exact ihp _ _ _ fun i hi => hrec i (List.mem_cons_of_mem _ hi)

/-- Claim C10: on every finite remote tree — here rendered as the
existence of a measure on remote paths that strictly decreases from a
directory to each of its subdirectory entries, which holds exactly when
every listing is finite (lists are) and the nesting reachable from the
root has finite depth — the recursive download terminates: with fuel
exceeding the measure of the starting path it returns a result
(`fuelOut` is never hit, at any input state). -/
theorem download_terminates_on_finite_trees
    (c : Client) (w : World) (owner repo : String) (μ : String → Nat)
    (hμ : ∀ path,
      (w.requests_get (listingUrl c owner repo path) c.headers).status_code
          = 200 →
      ∀ item ∈ (w.requests_get (listingUrl c owner repo path) c.headers).json,
        item.type = "dir" → μ (childRemotePath path item.name) < μ path) :
    ∀ (fuel : Nat) (path : String) (tp : List String) (fs : List FsEv),
      μ path < fuel →
      downloadDirContents c w owner repo fuel path tp fs ≠
        Outcome.fuelOut := by
  intro fuel
  induction fuel with
  | zero =>
    intro path tp fs hlt
    exact absurd hlt (Nat.not_lt_zero _)
  | succ n ih =>
    intro path tp fs hlt
    by_cases h200 : (w.requests_get (listingUrl c owner repo path)
        c.headers).status_code = 200
    · simp only [downloadDirContents, h200, ne_eq, not_true_eq_false,
        ite_false, if_false]
      refine processItems_ne_fuelOut c w _ path tp _ [] [] fs
        fun item hi hdi fs0 => ih _ _ fs0 ?_
      exact Nat.lt_of_lt_of_le (hμ path h200 item hi hdi)
        (Nat.lt_succ_iff.1 hlt)
    · rw [downloadDirContents_non200 c w owner repo n path tp fs h200]
      simp

/-- Witness for C10: with a world whose every listing fails, the
constant-zero measure is decreasing (vacuously) and fuel `1` already
suffices at the root. -/
theorem download_terminates_on_finite_trees_witness :
    downloadDirContents c0 wS404 "o" "r" 1 "" ["t"] [] ≠ Outcome.fuelOut :=
  download_terminates_on_finite_trees c0 wS404 "o" "r" (fun _ => 0)
    (fun _ h => absurd h (by simp [wS404])) 1 "" ["t"] [] (by decide)

/-- No method call mutates the client object: the source assigns to
`self.*` only in `__init__`. -/
theorem stepClient_id (c : Client) (op : Op) : stepClient c op = c := by
  cases op <;> rfl

/-- Claim C8: the credentials are set at construction and never modified
by any subsequent operation — after any sequence of `fetch_repository`,
`_download_directory_contents`, `_get_file_content`, or
`send_copilot_query` calls, the client's `username`, `pat_token`,
`headers`, and `base_url` fields are unchanged. -/
theorem credentials_immutable (c : Client) (ops : List Op) :
    (runOps c ops).username = c.username ∧
    (runOps c ops).pat_token = c.pat_token ∧
    (runOps c ops).headers = c.headers ∧
    (runOps c ops).base_url = c.base_url := by
  have h : ∀ c', runOps c' ops = c' := by
    induction ops with
    | nil => intro c'; rfl
    | cons op ops ih =>
      intro c'
      rw [runOps, stepClient_id]
      exact ih c'
  rw [h c]
  exact ⟨rfl, rfl, rfl, rfl⟩
